import Mathlib

/-!
Shallow embedding of the roster allocation and swap lifecycle engine of the
Mercal2 repository (src/services/escala_service.rs, src/models/escala.rs).

The SQLite store is modelled as a record of lists (one list per table, in row
order); every SQL statement of the service is translated into a pure list
operation, and every service function into a pure function
`DB → ... → Except String DB` whose `.error` branch corresponds to the Rust
early `return Err(...)` that drops (rolls back) the open transaction.
-/

namespace Mercal

/-- Byte-wise (code-point) lexicographic `≤` on strings, modelling SQLite's
    BINARY collation used by `BETWEEN` on text columns. -/
def charsLe : List Char → List Char → Bool
  | [], _ => true
  | _ :: _, [] => false
  | c :: cs, d :: ds =>
    if c.val < d.val then true
    else if d.val < c.val then false
    else charsLe cs ds

def strLe (a b : String) : Bool := charsLe a.toList b.toList

/-- Split a character list on a separator (the semantics of Rust's
    `str::split` / Lean's `String.splitOn`, re-stated structurally so that it
    evaluates inside the kernel). -/
def splitOnChar (sep : Char) : List Char → List (List Char)
  | [] => [[]]
  | c :: cs =>
    if c = sep then [] :: splitOnChar sep cs
    else
      match splitOnChar sep cs with
      | t :: ts => (c :: t) :: ts
      | [] => [[c]]

/-- Rust's `str::trim` on a character list (ASCII whitespace suffices here). -/
def trimChars (l : List Char) : List Char :=
  ((l.dropWhile Char.isWhitespace).reverse.dropWhile Char.isWhitespace).reverse

/-- Parse a non-empty all-digit character list as a natural number. -/
def digitsToNatAux : List Char → Nat → Option Nat
  | [], acc => some acc
  | c :: cs, acc =>
    if c.isDigit then digitsToNatAux cs (acc * 10 + (c.toNat - 48)) else none

def digitsToNat? : List Char → Option Nat
  | [] => none
  | l => digitsToNatAux l 0

/-- Leap-year test of the proleptic Gregorian calendar (what SQLite's `date`
    function uses). -/
def isLeap (y : Nat) : Bool := (y % 4 == 0 && y % 100 != 0) || y % 400 == 0

def daysInMonth (y m : Nat) : Nat :=
  if m == 2 then (if isLeap y then 29 else 28)
  else if m == 4 || m == 6 || m == 9 || m == 11 then 30
  else 31

/-- Days since the civil epoch 1970-01-01 (Howard Hinnant's `days_from_civil`),
    for year ≥ 1. Used to model SQLite's `date(x, '±1 day')` arithmetic. -/
def daysFromCivil (y m d : Nat) : Int :=
  let y' : Nat := if m ≤ 2 then y - 1 else y
  let era : Nat := y' / 400
  let yoe : Nat := y' - era * 400
  let mp : Nat := if m > 2 then m - 3 else m + 9
  let doy : Nat := (153 * mp + 2) / 5 + (d - 1)
  let doe : Nat := yoe * 365 + yoe / 4 - yoe / 100 + doy
  (era : Int) * 146097 + (doe : Int) - 719468

/-- Parse a `YYYY-MM-DD` date string; `none` on anything SQLite's `date()`
    would reject (modelling its NULL result). -/
def parseDate (s : String) : Option (Nat × Nat × Nat) :=
  match splitOnChar '-' s.toList with
  | [ys, ms, ds] =>
    match digitsToNat? ys, digitsToNat? ms, digitsToNat? ds with
    | some y, some m, some d =>
      if 1 ≤ y && 1 ≤ m && m ≤ 12 && 1 ≤ d && d ≤ daysInMonth y m then some (y, m, d)
      else none
    | _, _, _ => none
  | _ => none

def dateToDays? (s : String) : Option Int :=
  (parseDate s).map (fun p => daysFromCivil p.1 p.2.1 p.2.2)

/-! ## Data model (src/models/escala.rs and the SQLite tables) -/

/-- `postos` table / `Posto` struct. -/
structure Posto where
  id : Int
  nome : String
  genero_restricao : String
  turmas_permitidas : String
  peso : Int
  deriving Repr, DecidableEq

/-- `Posto::aceita_ano`: the post's comma-separated `turmas_permitidas`
    contains the user's year, comparing trimmed tokens. -/
def Posto.aceita_ano (p : Posto) (ano_user : Int) : Bool :=
  let ano_str := (toString ano_user).toList
  (splitOnChar ',' p.turmas_permitidas.toList).any (fun t => trimChars t == ano_str)

/-- Row of the `users` table, restricted to the columns the roster engine
    reads and writes (the `Candidato` projection plus identity). -/
structure User where
  id : String
  name : String
  genero : String
  turma : String
  ano : Int
  servicos_rn : Int
  servicos_rd : Int
  saldo_punicoes : Int
  deriving Repr, DecidableEq

/-- `indisponibilidades` table. -/
structure Indisponibilidade where
  user_id : String
  data_inicio : String
  data_fim : String
  deriving Repr, DecidableEq

/-- `escalas` table (day header): primary key `data`. -/
structure Escala where
  data : String
  tipo_rotina : String
  status : String
  deriving Repr, DecidableEq

/-- `alocacoes` table. Allocation ids are UUIDs in the source; they are
    modelled as naturals drawn from the store's fresh-id supply. -/
structure Alocacao where
  id : Nat
  user_id : String
  posto_id : Int
  data : String
  is_punicao : Bool
  deriving Repr, DecidableEq

/-- `trocas` table (swap requests), columns touched by the service. -/
structure Troca where
  id : Nat
  solicitante_id : String
  substituto_id : String
  alocacao_id : Nat
  status : String
  motivo : String
  data_resposta : Option String
  deriving Repr, DecidableEq

/-- The whole store: one list per table (in row order), a fresh-id supply for
    the UUIDs the service generates, and the clock value `datetime('now')`
    would return. -/
structure DB where
  users : List User
  postos : List Posto
  indisponibilidades : List Indisponibilidade
  escalas : List Escala
  alocacoes : List Alocacao
  trocas : List Troca
  nextId : Nat
  now : String
  deriving Repr, DecidableEq

/-! ## Shared query fragments -/

/-- The duty-type enum (`TipoRotina` in the source). -/
inductive TipoRotina | RN | RD
  deriving Repr, DecidableEq

def TipoRotina.as_str : TipoRotina → String
  | .RN => "RN"
  | .RD => "RD"

/-- Which `users` column a `TipoRotina` selects (`servicos_rn`/`servicos_rd`). -/
inductive CounterField | saldo | rn | rd
  deriving Repr, DecidableEq

def colField : TipoRotina → CounterField
  | .RN => .rn
  | .RD => .rd

def applyField : CounterField → Int → User → User
  | .saldo, d, u => { u with saldo_punicoes := u.saldo_punicoes + d }
  | .rn, d, u => { u with servicos_rn := u.servicos_rn + d }
  | .rd, d, u => { u with servicos_rd := u.servicos_rd + d }

/-- `UPDATE users SET <col> = <col> + δ WHERE id = ?`. -/
def updCounter (f : CounterField) (d : Int) (uid : String) (users : List User) :
    List User :=
  users.map (fun u => if u.id == uid then applyField f d u else u)

/-- The Fatigue Checker:
    `SELECT EXISTS(SELECT 1 FROM alocacoes WHERE user_id = ? AND
     date(data) BETWEEN date(?, '-1 day') AND date(?, '+1 day'))`.
    SQLite's `date()` returns NULL on an unparsable date, and a NULL bound
    makes the BETWEEN fail, hence the `Option` match. -/
def fatigueConflict (alocs : List Alocacao) (uid : String) (data_alvo : String) :
    Bool :=
  alocs.any (fun a =>
    a.user_id == uid &&
      match dateToDays? a.data, dateToDays? data_alvo with
      | some x, some y => decide (y - 1 ≤ x) && decide (x ≤ y + 1)
      | _, _ => false)

/-- `SELECT status FROM escalas WHERE data = ?` (`fetch_optional`). -/
def statusOf (db : DB) (data_alvo : String) : Option String :=
  (db.escalas.find? (fun e => e.data == data_alvo)).map (·.status)

/-! ## Day Allocator (`gerar_escala_diaria`) -/

/-- Teardown query of step 1:
    `SELECT user_id, is_punicao, e.tipo_rotina FROM alocacoes a
     JOIN escalas e ON a.data = e.data WHERE a.data = ?`. -/
def teardownRows (db : DB) (data_alvo : String) : List (String × Bool × String) :=
  (db.alocacoes.filter (fun a => a.data == data_alvo)).flatMap (fun a =>
    (db.escalas.filter (fun e => e.data == a.data)).map (fun e =>
      (a.user_id, a.is_punicao, e.tipo_rotina)))

/-- One row of the teardown loop: punishment duty returns the debt
    (`saldo_punicoes + 1`), ordinary duty removes the fairness point
    (type-specific column `- 1`). -/
def applyTeardownRow (users : List User) (r : String × Bool × String) :
    List User :=
  if r.2.1 then updCounter .saldo 1 r.1 users
  else updCounter (if r.2.2 == "RN" then .rn else .rd) (-1) r.1 users

/-- Step 1 of `gerar_escala_diaria` for a `Rascunho` day: reverse the prior
    bookkeeping, then `DELETE FROM alocacoes WHERE data = ?`. -/
def teardown (db : DB) (data_alvo : String) : DB :=
  { db with
    users := (teardownRows db data_alvo).foldl applyTeardownRow db.users
    alocacoes := db.alocacoes.filter (fun a => a.data != data_alvo) }

/-- Step 2: `INSERT OR REPLACE INTO escalas (data, tipo_rotina, status)
    VALUES (?, ?, 'Rascunho')`. -/
def upsertHeader (db : DB) (data_alvo : String) (tipo : TipoRotina) : DB :=
  { db with
    escalas := db.escalas.filter (fun e => e.data != data_alvo) ++
      [⟨data_alvo, tipo.as_str, "Rascunho"⟩] }

/-- The candidate query of step 3 for one post: gender filter (`genero = ?`
    or restriction `'Misto'`), unavailability anti-join (raw string BETWEEN),
    `ORDER BY saldo_punicoes DESC, <col> ASC`. The SQL names no further sort
    key, so ties keep the row order of the table scan (a stable sort). -/
def candKeyLe (tipo : TipoRotina) (u v : User) : Bool :=
  decide (v.saldo_punicoes < u.saldo_punicoes) ||
    (u.saldo_punicoes == v.saldo_punicoes &&
      match tipo with
      | .RN => decide (u.servicos_rn ≤ v.servicos_rn)
      | .RD => decide (u.servicos_rd ≤ v.servicos_rd))

/-- Stable insert: the new element goes after every element not strictly
    greater than it, so equal-keyed rows keep their scan order. -/
def insertRanked (le : User → User → Bool) (x : User) : List User → List User
  | [] => [x]
  | y :: ys => if le y x then y :: insertRanked le x ys else x :: y :: ys

def sortRanked (le : User → User → Bool) (l : List User) : List User :=
  l.foldl (fun acc x => insertRanked le x acc) []

def elegivel (db : DB) (posto : Posto) (data_alvo : String) (u : User) : Bool :=
  (u.genero == posto.genero_restricao || posto.genero_restricao == "Misto") &&
    !(db.indisponibilidades.any (fun i =>
      i.user_id == u.id && strLe i.data_inicio data_alvo &&
        strLe data_alvo i.data_fim))

def candidatos (db : DB) (posto : Posto) (data_alvo : String)
    (tipo : TipoRotina) : List User :=
  sortRanked (candKeyLe tipo) (db.users.filter (elegivel db posto data_alvo))

/-- The inner `for user in candidatos` loop: first candidate passing the
    seniority-year rule and the fatigue check. -/
def escolherCandidato (alocs : List Alocacao) (posto : Posto)
    (data_alvo : String) : List User → Option User
  | [] => none
  | u :: rest =>
    if !(posto.aceita_ano u.ano) then escolherCandidato alocs posto data_alvo rest
    else if fatigueConflict alocs u.id data_alvo then
      escolherCandidato alocs posto data_alvo rest
    else some u

/-- Body of the per-post loop: pick a candidate, insert the allocation row,
    update the chosen user's counters; abort if nobody fits. -/
def alocarPosto (db : DB) (posto : Posto) (data_alvo : String)
    (tipo : TipoRotina) : Except String DB :=
  match escolherCandidato db.alocacoes posto data_alvo
      (candidatos db posto data_alvo tipo) with
  | some user =>
    let is_pun : Bool := decide (user.saldo_punicoes > 0)
    let row : Alocacao := ⟨db.nextId, user.id, posto.id, data_alvo, is_pun⟩
    let db1 := { db with alocacoes := db.alocacoes ++ [row], nextId := db.nextId + 1 }
    if is_pun then
      .ok { db1 with users := updCounter .saldo (-1) user.id db1.users }
    else
      .ok { db1 with users := updCounter (colField tipo) 1 user.id db1.users }
  | none =>
    .error ("ERRO CRÍTICO: Ninguém disponível para o posto '" ++ posto.nome ++
      "' (Ano exigido: " ++ posto.turmas_permitidas ++
      "). Verifique efetivo ou restrições.")

def alocarPostos (data_alvo : String) (tipo : TipoRotina) :
    List Posto → DB → Except String DB
  | [], db => .ok db
  | p :: ps, db =>
    match alocarPosto db p data_alvo tipo with
    | .ok db' => alocarPostos data_alvo tipo ps db'
    | .error e => .error e

/-- `gerar_escala_diaria`: status check, teardown of a prior draft, header
    upsert, per-post allocation. The `.error` branches correspond to the Rust
    early returns that drop the open transaction. -/
def gerar_escala_diaria (db : DB) (data_alvo : String) (tipo : TipoRotina) :
    Except String DB :=
  match statusOf db data_alvo with
  | some s =>
    if s == "Publicada" then
      .error ("O dia " ++ data_alvo ++
        " já está PUBLICADO. Use a Errata para reabrir antes de regenerar.")
    else
      let db1 := upsertHeader (teardown db data_alvo) data_alvo tipo
      alocarPostos data_alvo tipo db1.postos db1
  | none =>
    let db1 := upsertHeader db data_alvo tipo
    alocarPostos data_alvo tipo db1.postos db1

/-- The transaction wrapper: commit on success, roll back (keep the caller's
    state) on error. -/
def runGerar (db : DB) (data_alvo : String) (tipo : TipoRotina) :
    DB × Option String :=
  match gerar_escala_diaria db data_alvo tipo with
  | .ok db' => (db', none)
  | .error e => (db, some e)

/-! ## Publication (`publicar_escala`) -/

def publicarPred (inicio fim : String) (e : Escala) : Bool :=
  strLe inicio e.data && strLe e.data fim && e.status == "Rascunho"

/-- `UPDATE escalas SET status = 'Publicada' WHERE data BETWEEN ? AND ?
    AND status = 'Rascunho'`, then the zero-rows check. The UPDATE runs on
    the pool before the check, so the updated store is returned either way. -/
def publicar_escala (db : DB) (inicio fim : String) :
    DB × Except String String :=
  let affected :=
    (db.escalas.filter (publicarPred inicio fim)).length
  let db' := { db with
    escalas := db.escalas.map (fun e =>
      if publicarPred inicio fim e then { e with status := "Publicada" } else e) }
  if affected == 0 then
    (db', .error "Nenhuma escala 'Rascunho' encontrada neste período para publicar.")
  else
    (db', .ok (toString affected ++ " dias de escala foram tornados OFICIAIS (Publicados)."))

/-! ## Swap workflow (`solicitar_troca`, `responder_troca_usuario`,
    `aprovar_troca`) -/

/-- `SELECT e.status, a.data FROM alocacoes a JOIN escalas e ON a.data = e.data
    WHERE a.id = ?` (`fetch_optional`). -/
def solicitarJoin (db : DB) (alocacao_id : Nat) : Option (String × String) :=
  ((db.alocacoes.filter (fun a => a.id == alocacao_id)).flatMap (fun a =>
    (db.escalas.filter (fun e => e.data == a.data)).map (fun e =>
      (e.status, a.data)))).head?

def solicitar_troca (db : DB) (solicitante_id : String) (alocacao_id : Nat)
    (substituto_id : String) (motivo : String) : Except String DB :=
  match solicitarJoin db alocacao_id with
  | none => .error "Alocação não encontrada"
  | some (status, data_servico) =>
    if status == "Publicada" then
      .error "Esta escala já está PUBLICADA. Alterações só via Admin/Escalante."
    else if fatigueConflict db.alocacoes substituto_id data_servico then
      .error "O substituto viola a regra de fadiga (24h)."
    else
      .ok { db with
        trocas := db.trocas ++
          [⟨db.nextId, solicitante_id, substituto_id, alocacao_id, "Pendente",
            motivo, none⟩]
        nextId := db.nextId + 1 }

/-- Row of the approval query:
    `SELECT t.solicitante_id, t.substituto_id, t.alocacao_id, a.data,
     e.tipo_rotina, a.is_punicao FROM trocas t JOIN alocacoes a ... JOIN
     escalas e ... WHERE t.id = ? AND t.status = 'Pendente'`. -/
structure TrocaJoinRow where
  solicitante_id : String
  substituto_id : String
  alocacao_id : Nat
  data : String
  tipo_rotina : String
  is_punicao : Bool
  deriving Repr, DecidableEq

def aprovarJoin (db : DB) (troca_id : Nat) : Option TrocaJoinRow :=
  ((db.trocas.filter (fun t => t.id == troca_id && t.status == "Pendente")).flatMap
    (fun t =>
      (db.alocacoes.filter (fun a => a.id == t.alocacao_id)).flatMap (fun a =>
        (db.escalas.filter (fun e => e.data == a.data)).map (fun e =>
          ⟨t.solicitante_id, t.substituto_id, t.alocacao_id, a.data,
            e.tipo_rotina, a.is_punicao⟩)))).head?

def aprovar_troca_impl_completa (db : DB) (troca_id : Nat) : Except String DB :=
  match aprovarJoin db troca_id with
  | none => .error "Troca inválida"
  | some d =>
    if fatigueConflict db.alocacoes d.substituto_id d.data then
      .error "Substituto com fadiga"
    else
      let alocs := db.alocacoes.map (fun a =>
        if a.id == d.alocacao_id then { a with user_id := d.substituto_id } else a)
      let users1 :=
        if !d.is_punicao then
          let f := if d.tipo_rotina == "RN" then CounterField.rn else CounterField.rd
          updCounter f 1 d.substituto_id (updCounter f (-1) d.solicitante_id db.users)
        else db.users
      let trocas' := db.trocas.map (fun t =>
        if t.id == troca_id then
          { t with status := "Aprovada", data_resposta := some db.now }
        else t)
      .ok { db with alocacoes := alocs, users := users1, trocas := trocas' }

def aprovar_troca (db : DB) (troca_id : Nat) : Except String DB :=
  aprovar_troca_impl_completa db troca_id

/-- Transaction wrapper for approval: roll back on error. -/
def runAprovar (db : DB) (troca_id : Nat) : DB × Option String :=
  match aprovar_troca db troca_id with
  | .ok db' => (db', none)
  | .error e => (db, some e)

def responder_troca_usuario (db : DB) (troca_id : Nat) (user_id : String)
    (acao : String) : Except String DB :=
  match (db.trocas.filter (fun t => t.id == troca_id)).head? with
  | none => .error "Pedido de troca não encontrado."
  | some t =>
    if t.substituto_id != user_id then
      .error "Não tem permissão para responder a este pedido."
    else if t.status != "Pendente" then
      .error "Este pedido já foi respondido ou processado."
    else if acao == "aceitar" then
      .ok { db with trocas := db.trocas.map (fun tr =>
        if tr.id == troca_id then { tr with status := "AguardandoEscalante" } else tr) }
    else
      .ok { db with trocas := db.trocas.map (fun tr =>
        if tr.id == troca_id then
          { tr with status := "Recusada", data_resposta := some db.now }
        else tr) }

/-! ## Concrete fixtures used by witnesses and counterexamples -/

/-- Person A of the spec's worked example: year 1, no punishment debt,
    normal-counter 3. -/
def userA : User := ⟨"a", "A", "M", "T1", 1, 3, 0, 0⟩

/-- Person B of the spec's worked example: year 2, punishment balance 1,
    normal-counter 5. -/
def userB : User := ⟨"b", "B", "M", "T1", 2, 5, 0, 1⟩

def postoMisto : Posto := ⟨1, "P1", "Misto", "1,2", 10⟩

/-- A fresh store: two users, one mixed post, nothing generated yet. -/
def dbExemplo : DB := ⟨[userA, userB], [postoMisto], [], [], [], [], 0, "T0"⟩

/-- A store whose only day header is already published. -/
def dbPublicado : DB :=
  ⟨[userA], [postoMisto], [], [⟨"2025-01-06", "RN", "Publicada"⟩], [], [], 0, "T0"⟩

/-- Swap fixture: user x holds allocation 1 on a draft day; the swap record 2
    names x as requester and z as substitute and is still `Pendente` (the
    substitute has not responded). -/
def userX : User := ⟨"x", "X", "M", "T1", 1, 5, 0, 0⟩

def userZ : User := ⟨"z", "Z", "M", "T1", 1, 2, 0, 0⟩

def dbTrocaPendente : DB :=
  ⟨[userX, userZ], [postoMisto], [],
    [⟨"2025-01-06", "RN", "Rascunho"⟩],
    [⟨1, "x", 1, "2025-01-06", false⟩],
    [⟨2, "x", "z", 1, "Pendente", "m", none⟩], 3, "T1"⟩

/-- Same store, but the substitute has already accepted: the swap is in
    `AguardandoEscalante`. -/
def dbTrocaAceite : DB :=
  ⟨[userX, userZ], [postoMisto], [],
    [⟨"2025-01-06", "RN", "Rascunho"⟩],
    [⟨1, "x", 1, "2025-01-06", false⟩],
    [⟨2, "x", "z", 1, "AguardandoEscalante", "m", none⟩], 3, "T1"⟩

/-- Same swap fixture, but the day header is already `Publicada`. -/
def dbTrocaPublicada : DB :=
  ⟨[userX, userZ], [postoMisto], [],
    [⟨"2025-01-06", "RN", "Publicada"⟩],
    [⟨1, "x", 1, "2025-01-06", false⟩],
    [⟨2, "x", "z", 1, "Pendente", "m", none⟩], 3, "T1"⟩

/-- A store with one draft day header inside January 2025. -/
def dbRascunho : DB :=
  ⟨[userA], [postoMisto], [], [⟨"2025-01-06", "RN", "Rascunho"⟩],
    [⟨1, "a", 1, "2025-01-06", false⟩], [], 2, "T0"⟩

/-- The fairness counter the day's duty-type selects. -/
def servicoDe : TipoRotina → User → Int
  | .RN, u => u.servicos_rn
  | .RD, u => u.servicos_rd

/-- Modelled from the spec's ordering words (not from the code): punishment
    balance descending, then the selected fairness counter ascending, with
    ties broken by natural id ordering. -/
def specTieOrder (tipo : TipoRotina) (u v : User) : Prop :=
  v.saldo_punicoes < u.saldo_punicoes ∨
    (u.saldo_punicoes = v.saldo_punicoes ∧
      (servicoDe tipo u < servicoDe tipo v ∨
        (servicoDe tipo u = servicoDe tipo v ∧ strLe u.id v.id = true)))

instance (tipo : TipoRotina) (u v : User) : Decidable (specTieOrder tipo u v) := by
  unfold specTieOrder
  infer_instance

/-- Two fully tied candidates stored in non-id order. -/
def userTieB : User := ⟨"b1", "TB", "M", "T1", 1, 0, 0, 0⟩

def userTieA : User := ⟨"a1", "TA", "M", "T1", 1, 0, 0, 0⟩

def dbEmpate : DB := ⟨[userTieB, userTieA], [postoMisto], [], [], [], [], 0, "T"⟩

def userY : User := ⟨"y", "Y", "M", "T1", 1, 4, 0, 0⟩

/-- Swap-request fixture: x holds allocation 1 on a draft day; y and z are
    bystanders. -/
def dbPedido : DB :=
  ⟨[userX, userY, userZ], [postoMisto], [],
    [⟨"2025-01-06", "RN", "Rascunho"⟩],
    [⟨1, "x", 1, "2025-01-06", false⟩], [], 5, "T0"⟩

/-! ## Proof-infrastructure definitions for the regeneration argument -/

/-- The cumulative fairness bookkeeping of one allocation pass, as a list of
    (chosen user id, punishment-driven?) deltas. -/
def bookkeepDeltas (tipo : TipoRotina) (ds : List (String × Bool))
    (users : List User) : List User :=
  ds.foldl (fun us d =>
    if d.2 then updCounter .saldo (-1) d.1 us
    else updCounter (colField tipo) 1 d.1 us) users

/-- The fields of an allocation row the allocation pass can observe (its
    generated id is invisible to candidate ranking and fatigue checks). -/
def stripId (a : Alocacao) : String × Int × String × Bool :=
  (a.user_id, a.posto_id, a.data, a.is_punicao)

/-- Two stores the allocation pass cannot distinguish: equal except for the
    fresh-id supply and the generated ids of allocation rows. -/
def DBSim (s t : DB) : Prop :=
  s.users = t.users ∧ s.postos = t.postos ∧
  s.indisponibilidades = t.indisponibilidades ∧ s.escalas = t.escalas ∧
  s.trocas = t.trocas ∧ s.now = t.now ∧
  s.alocacoes.map stripId = t.alocacoes.map stripId

def ExceptSim : Except String DB → Except String DB → Prop
  | .ok a, .ok b => DBSim a b
  | .error e, .error f => e = f
  | _, _ => False

end Mercal

namespace Mercal

/-! ## C5: regenerating a published day -/

/-- C5: for every date whose day header is `Publicada`, `gerar_escala_diaria`
    fails with the "already published / use Errata" error, and the
    transaction wrapper leaves the whole store unchanged. -/
theorem C5_regenerar_publicado_falha (db : DB) (data_alvo : String)
    (tipo : TipoRotina) (h : statusOf db data_alvo = some "Publicada") :
    gerar_escala_diaria db data_alvo tipo =
      .error ("O dia " ++ data_alvo ++
        " já está PUBLICADO. Use a Errata para reabrir antes de regenerar.") ∧
    (runGerar db data_alvo tipo).1 = db := by
  have hg : gerar_escala_diaria db data_alvo tipo =
      .error ("O dia " ++ data_alvo ++
        " já está PUBLICADO. Use a Errata para reabrir antes de regenerar.") := by
    unfold gerar_escala_diaria
    rw [h]
    simp
  refine ⟨hg, ?_⟩
  unfold runGerar
  rw [hg]

/-- Witness for C5 at the concrete published store. -/
theorem C5_witness :
    gerar_escala_diaria dbPublicado "2025-01-06" .RN =
      .error ("O dia " ++ "2025-01-06" ++
        " já está PUBLICADO. Use a Errata para reabrir antes de regenerar.") ∧
    (runGerar dbPublicado "2025-01-06" .RN).1 = dbPublicado :=
  C5_regenerar_publicado_falha dbPublicado "2025-01-06" .RN (by decide)

/-! ## C4: the generation transaction is atomic -/

/-- C4: whenever any step of `gerar_escala_diaria` fails, the transaction is
    rolled back: the persisted store is exactly the caller's store, so no
    allocation row, header change, fairness-counter change or
    punishment-balance change of the aborted run survives. -/
theorem C4_geracao_atomica (db : DB) (data_alvo : String) (tipo : TipoRotina)
    (e : String) (h : gerar_escala_diaria db data_alvo tipo = .error e) :
    runGerar db data_alvo tipo = (db, some e) := by
  unfold runGerar
  rw [h]

/-- Witness for C4: the published-day failure rolls back to the exact store. -/
theorem C4_witness :
    runGerar dbPublicado "2025-01-06" .RN =
      (dbPublicado, some ("O dia " ++ "2025-01-06" ++
        " já está PUBLICADO. Use a Errata para reabrir antes de regenerar.")) :=
  C4_geracao_atomica dbPublicado "2025-01-06" .RN _ (by rfl)

/-! ## C1: what a swap approval does -/

/-- Shared characterisation of `aprovar_troca` on a row found by the approval
    query: fatigue conflict ⇒ error and rollback, no conflict ⇒ the exact
    mutated store. -/
theorem aprovar_spec_aux (db : DB) (tid : Nat) (d : TrocaJoinRow)
    (hj : aprovarJoin db tid = some d) :
    (fatigueConflict db.alocacoes d.substituto_id d.data = true →
      aprovar_troca db tid = .error "Substituto com fadiga" ∧
      (runAprovar db tid).1 = db) ∧
    (fatigueConflict db.alocacoes d.substituto_id d.data = false →
      aprovar_troca db tid = .ok
        { db with
          alocacoes := db.alocacoes.map (fun a =>
            if a.id == d.alocacao_id then { a with user_id := d.substituto_id }
            else a)
          users :=
            if d.is_punicao then db.users
            else
              updCounter (if d.tipo_rotina == "RN" then .rn else .rd) 1
                d.substituto_id
                (updCounter (if d.tipo_rotina == "RN" then .rn else .rd) (-1)
                  d.solicitante_id db.users)
          trocas := db.trocas.map (fun t =>
            if t.id == tid then
              { t with status := "Aprovada", data_resposta := some db.now }
            else t) }) := by
  constructor
  · intro hf
    have hg : aprovar_troca db tid = .error "Substituto com fadiga" := by
      unfold aprovar_troca aprovar_troca_impl_completa
      rw [hj]
      simp [hf]
    refine ⟨hg, ?_⟩
    unfold runAprovar
    rw [hg]
  · intro hf
    unfold aprovar_troca aprovar_troca_impl_completa
    rw [hj]
    simp only [hf]
    cases hpun : d.is_punicao <;> simp

/-- C1: on a swap record selected by the approval query, the approval first
    re-runs the Fatigue Checker for the substitute against the allocation's
    date and fails (rolling the transaction back) on a conflict; otherwise it
    rewrites the allocation's person id to the substitute, transfers the
    day's duty-type fairness point from the requester to the substitute
    exactly when the allocation is not punishment-driven, and marks the swap
    `Aprovada` with a response timestamp — all in the one returned store. -/
theorem C1_aprovar_troca_spec (db : DB) (tid : Nat) (d : TrocaJoinRow)
    (hj : aprovarJoin db tid = some d) :
    (fatigueConflict db.alocacoes d.substituto_id d.data = true →
      aprovar_troca db tid = .error "Substituto com fadiga" ∧
      (runAprovar db tid).1 = db) ∧
    (fatigueConflict db.alocacoes d.substituto_id d.data = false →
      aprovar_troca db tid = .ok
        { db with
          alocacoes := db.alocacoes.map (fun a =>
            if a.id == d.alocacao_id then { a with user_id := d.substituto_id }
            else a)
          users :=
            if d.is_punicao then db.users
            else
              updCounter (if d.tipo_rotina == "RN" then .rn else .rd) 1
                d.substituto_id
                (updCounter (if d.tipo_rotina == "RN" then .rn else .rd) (-1)
                  d.solicitante_id db.users)
          trocas := db.trocas.map (fun t =>
            if t.id == tid then
              { t with status := "Aprovada", data_resposta := some db.now }
            else t) }) :=
  aprovar_spec_aux db tid d hj

/-- Witness for C1 at the concrete pending-swap store (non-punishment
    allocation: the RN point moves from x to z). -/
theorem C1_witness :
    aprovar_troca dbTrocaPendente 2 = .ok
      { dbTrocaPendente with
        alocacoes := dbTrocaPendente.alocacoes.map (fun a =>
          if a.id == (1 : Nat) then { a with user_id := "z" } else a)
        users :=
          if false then dbTrocaPendente.users
          else
            updCounter (if "RN" == "RN" then .rn else .rd) 1 "z"
              (updCounter (if "RN" == "RN" then .rn else .rd) (-1) "x"
                dbTrocaPendente.users)
        trocas := dbTrocaPendente.trocas.map (fun t =>
          if t.id == (2 : Nat) then
            { t with status := "Aprovada", data_resposta := some dbTrocaPendente.now }
          else t) } :=
  (C1_aprovar_troca_spec dbTrocaPendente 2
      ⟨"x", "z", 1, "2025-01-06", "RN", false⟩ (by rfl)).2 (by rfl)

/-! ## C2: approval runs before, not after, the substitute's consent -/

/-- C2 (refuting the claim, exposing the code bug): the approval query
    demands `status = 'Pendente'`, so a swap the substitute has already
    accepted (status `AguardandoEscalante`) can never be approved — it fails
    with "Troca inválida" — while a swap the substitute has NOT yet answered
    is approved and the allocation's owner rewritten. Concretely: approving
    pending swap 2 of `dbTrocaPendente` rewrites allocation 1 to "z", and the
    same approval on `dbTrocaAceite` (identical but accepted) errors out. -/
theorem C2_aprovacao_sem_consentimento :
    (aprovar_troca dbTrocaPendente 2).map
        (fun db' => (db'.alocacoes.map (fun a => a.user_id),
          db'.trocas.map (fun t => t.status))) =
      .ok (["z"], ["Aprovada"]) ∧
    aprovar_troca dbTrocaAceite 2 = .error "Troca inválida" := by
  constructor
  · rfl
  · rfl

/-! ## C10: approval ignores the day's publication status -/

/-- C10: the approval path never inspects the day header's
    `Rascunho`/`Publicada` status: whenever the `Pendente`-status query finds
    the swap and the substitute passes the fatigue re-check, the approval
    rewrites the allocation's owner and transfers the fairness credit, even
    when the allocation's day is already `Publicada`. -/
theorem C10_aprovar_ignora_publicacao (db : DB) (tid : Nat) (d : TrocaJoinRow)
    (hj : aprovarJoin db tid = some d)
    (hf : fatigueConflict db.alocacoes d.substituto_id d.data = false)
    (_hpub : ∃ e ∈ db.escalas, e.data = d.data ∧ e.status = "Publicada") :
    ∃ db', aprovar_troca db tid = .ok db' ∧
      db'.alocacoes = db.alocacoes.map (fun a =>
        if a.id == d.alocacao_id then { a with user_id := d.substituto_id }
        else a) ∧
      (d.is_punicao = false →
        db'.users =
          updCounter (if d.tipo_rotina == "RN" then .rn else .rd) 1
            d.substituto_id
            (updCounter (if d.tipo_rotina == "RN" then .rn else .rd) (-1)
              d.solicitante_id db.users)) := by
  refine ⟨_, ((aprovar_spec_aux db tid d hj).2 hf), ?_, ?_⟩
  · rfl
  · intro hpu
    simp [hpu]

/-! ## C9: publication of a date range -/

theorem map_if_id_of_none {α : Type} {l : List α} {p : α → Bool} {f : α → α}
    (h : ∀ e ∈ l, p e = false) :
    l.map (fun e => if p e then f e else e) = l := by
  induction l with
  | nil => rfl
  | cons x xs ih =>
    have hx := h x (by simp)
    have ht := ih (fun e he => h e (by simp [he]))
    simp [hx, ht]

/-- C9: `publicar_escala` transitions exactly the `Rascunho` day headers in
    the (string-compared, inclusive) range to `Publicada`, leaving every
    other header and every other table untouched, and reports the count; when
    no draft day lies in the range it returns the "nothing to publish" error
    and the store is unchanged. -/
theorem C9_publicar_spec (db : DB) (inicio fim : String) :
    ((db.escalas.filter (publicarPred inicio fim)).length = 0 →
      publicar_escala db inicio fim =
        (db, .error "Nenhuma escala 'Rascunho' encontrada neste período para publicar.")) ∧
    ((db.escalas.filter (publicarPred inicio fim)).length ≠ 0 →
      publicar_escala db inicio fim =
        ({ db with escalas := db.escalas.map (fun e =>
            if publicarPred inicio fim e then { e with status := "Publicada" }
            else e) },
          .ok (toString (db.escalas.filter (publicarPred inicio fim)).length ++
            " dias de escala foram tornados OFICIAIS (Publicados)."))) := by
  constructor
  · intro h0
    have hnil : db.escalas.filter (publicarPred inicio fim) = [] :=
      List.length_eq_zero.mp h0
    have hnone : ∀ e ∈ db.escalas, publicarPred inicio fim e = false := by
      intro e he
      by_contra hc
      have : e ∈ db.escalas.filter (publicarPred inicio fim) :=
        List.mem_filter.mpr ⟨he, by revert hc; cases publicarPred inicio fim e <;> simp⟩
      rw [hnil] at this
      exact absurd this (List.not_mem_nil e)
    unfold publicar_escala
    simp only [h0]
    have hid : db.escalas.map (fun e =>
        if publicarPred inicio fim e then { e with status := "Publicada" }
        else e) = db.escalas := map_if_id_of_none hnone
    simp [hid]
  · intro h0
    unfold publicar_escala
    have : ((db.escalas.filter (publicarPred inicio fim)).length == 0) = false := by
      simp [h0]
    simp [this]

/-- Witness for C9: publishing January over `dbRascunho` publishes its one
    draft day and reports a count of 1. -/
theorem C9_witness :
    publicar_escala dbRascunho "2025-01-01" "2025-01-31" =
      ({ dbRascunho with escalas := dbRascunho.escalas.map (fun e =>
          if publicarPred "2025-01-01" "2025-01-31" e then
            { e with status := "Publicada" }
          else e) },
        .ok (toString
            (dbRascunho.escalas.filter (publicarPred "2025-01-01" "2025-01-31")).length ++
          " dias de escala foram tornados OFICIAIS (Publicados).")) :=
  (C9_publicar_spec dbRascunho "2025-01-01" "2025-01-31").2 (by decide)

/-! ## C6: punishment-driven vs ordinary allocation bookkeeping -/

theorem updCounter_saldo_keeps_servicos (d : Int) (uid : String)
    (users : List User) :
    (updCounter .saldo d uid users).map (fun v => (v.servicos_rn, v.servicos_rd)) =
      users.map (fun v => (v.servicos_rn, v.servicos_rd)) := by
  unfold updCounter
  rw [List.map_map]
  apply List.map_congr_left
  intro v _
  simp only [Function.comp_apply]
  split <;> rfl

theorem updCounter_col_keeps_saldo (tipo : TipoRotina) (d : Int) (uid : String)
    (users : List User) :
    (updCounter (colField tipo) d uid users).map (·.saldo_punicoes) =
      users.map (·.saldo_punicoes) := by
  unfold updCounter
  rw [List.map_map]
  apply List.map_congr_left
  intro v _
  simp only [Function.comp_apply]
  cases tipo <;> split <;> rfl

/-- C6: when the Candidate Selector picks `u` for a post, the created
    allocation row carries the punishment flag exactly when `u`'s punishment
    balance is positive; in that case the balance is decremented by 1 and
    both fairness counters of every user are untouched, otherwise the
    duty-type's fairness counter is incremented by 1 and every punishment
    balance is untouched. -/
theorem C6_contabilidade_alocacao (db : DB) (posto : Posto)
    (data_alvo : String) (tipo : TipoRotina) (u : User)
    (h : escolherCandidato db.alocacoes posto data_alvo
        (candidatos db posto data_alvo tipo) = some u) :
    ∃ db', alocarPosto db posto data_alvo tipo = .ok db' ∧
      db'.alocacoes = db.alocacoes ++
        [⟨db.nextId, u.id, posto.id, data_alvo, decide (u.saldo_punicoes > 0)⟩] ∧
      (u.saldo_punicoes > 0 →
        db'.users = updCounter .saldo (-1) u.id db.users ∧
        db'.users.map (fun v => (v.servicos_rn, v.servicos_rd)) =
          db.users.map (fun v => (v.servicos_rn, v.servicos_rd))) ∧
      (¬ u.saldo_punicoes > 0 →
        db'.users = updCounter (colField tipo) 1 u.id db.users ∧
        db'.users.map (·.saldo_punicoes) = db.users.map (·.saldo_punicoes)) := by
  by_cases hs : u.saldo_punicoes > 0
  · have hd : decide (u.saldo_punicoes > 0) = true := by simpa using hs
    have heq : alocarPosto db posto data_alvo tipo = .ok
        { db with
          alocacoes := db.alocacoes ++
            [⟨db.nextId, u.id, posto.id, data_alvo, decide (u.saldo_punicoes > 0)⟩]
          nextId := db.nextId + 1
          users := updCounter .saldo (-1) u.id db.users } := by
      unfold alocarPosto
      rw [h]
      simp [hd]
    exact ⟨_, heq, rfl,
      fun _ => ⟨rfl, updCounter_saldo_keeps_servicos (-1) u.id db.users⟩,
      fun hc => absurd hs hc⟩
  · have hd : decide (u.saldo_punicoes > 0) = false := by simpa using hs
    have heq : alocarPosto db posto data_alvo tipo = .ok
        { db with
          alocacoes := db.alocacoes ++
            [⟨db.nextId, u.id, posto.id, data_alvo, decide (u.saldo_punicoes > 0)⟩]
          nextId := db.nextId + 1
          users := updCounter (colField tipo) 1 u.id db.users } := by
      unfold alocarPosto
      rw [h]
      simp [hd]
    exact ⟨_, heq, rfl, fun hc => absurd hc hs,
      fun _ => ⟨rfl, updCounter_col_keeps_saldo tipo 1 u.id db.users⟩⟩

/-- Witness for C6 at the spec's worked example: B (punishment balance 1) is
    chosen, the allocation is punishment-driven, B's balance drops to 0 and
    no fairness counter moves. -/
theorem C6_witness :
    ∃ db', alocarPosto dbExemplo postoMisto "2025-01-06" .RN = .ok db' ∧
      db'.alocacoes = dbExemplo.alocacoes ++
        [⟨dbExemplo.nextId, userB.id, postoMisto.id, "2025-01-06",
          decide (userB.saldo_punicoes > 0)⟩] ∧
      (userB.saldo_punicoes > 0 →
        db'.users = updCounter .saldo (-1) userB.id dbExemplo.users ∧
        db'.users.map (fun v => (v.servicos_rn, v.servicos_rd)) =
          dbExemplo.users.map (fun v => (v.servicos_rn, v.servicos_rd))) ∧
      (¬ userB.saldo_punicoes > 0 →
        db'.users = updCounter (colField .RN) 1 userB.id dbExemplo.users ∧
        db'.users.map (·.saldo_punicoes) = dbExemplo.users.map (·.saldo_punicoes)) :=
  C6_contabilidade_alocacao dbExemplo postoMisto "2025-01-06" .RN userB (by rfl)

/-! ## C7: the candidate pool -/

theorem mem_insertRanked (le : User → User → Bool) (x a : User)
    (l : List User) :
    a ∈ insertRanked le x l ↔ a = x ∨ a ∈ l := by
  induction l with
  | nil => simp [insertRanked]
  | cons y ys ih =>
    unfold insertRanked
    split
    · simp only [List.mem_cons, ih]
      tauto
    · simp only [List.mem_cons, ih]

theorem mem_sortRanked_aux (le : User → User → Bool) (l acc : List User)
    (a : User) :
    a ∈ l.foldl (fun acc x => insertRanked le x acc) acc ↔ a ∈ acc ∨ a ∈ l := by
  induction l generalizing acc with
  | nil => simp
  | cons x xs ih =>
    simp only [List.foldl_cons, ih, mem_insertRanked, List.mem_cons]
    tauto

theorem pairwise_insertRanked (le : User → User → Bool)
    (htot : ∀ u v, le u v = true ∨ le v u = true)
    (htrans : ∀ u v w, le u v = true → le v w = true → le u w = true)
    (x : User) (l : List User)
    (hl : l.Pairwise (fun u v => le u v = true)) :
    (insertRanked le x l).Pairwise (fun u v => le u v = true) := by
  induction l with
  | nil => simp [insertRanked]
  | cons y ys ih =>
    rcases List.pairwise_cons.mp hl with ⟨hy, hys⟩
    unfold insertRanked
    split
    · rename_i hyx
      refine List.pairwise_cons.mpr ⟨?_, ih hys⟩
      intro b hb
      rcases (mem_insertRanked le x b ys).mp hb with rfl | hbys
      · exact hyx
      · exact hy b hbys
    · rename_i hyx
      have hxy : le x y = true := by
        rcases htot x y with h | h
        · exact h
        · exact absurd h (by simpa using hyx)
      refine List.pairwise_cons.mpr ⟨?_, hl⟩
      intro b hb
      rcases List.mem_cons.mp hb with rfl | hbys
      · exact hxy
      · exact htrans x y b hxy (hy b hbys)

theorem pairwise_sortRanked_aux (le : User → User → Bool)
    (htot : ∀ u v, le u v = true ∨ le v u = true)
    (htrans : ∀ u v w, le u v = true → le v w = true → le u w = true)
    (l : List User) :
    ∀ acc, acc.Pairwise (fun u v => le u v = true) →
      (l.foldl (fun acc x => insertRanked le x acc) acc).Pairwise
        (fun u v => le u v = true) := by
  induction l with
  | nil => intro acc hacc; simpa using hacc
  | cons x xs ih =>
    intro acc hacc
    exact ih _ (pairwise_insertRanked le htot htrans x acc hacc)

theorem candKeyLe_iff (tipo : TipoRotina) (u v : User) :
    candKeyLe tipo u v = true ↔
      (v.saldo_punicoes < u.saldo_punicoes ∨
        (u.saldo_punicoes = v.saldo_punicoes ∧ servicoDe tipo u ≤ servicoDe tipo v)) := by
  unfold candKeyLe servicoDe
  cases tipo <;> simp

theorem candKeyLe_total (tipo : TipoRotina) (u v : User) :
    candKeyLe tipo u v = true ∨ candKeyLe tipo v u = true := by
  rw [candKeyLe_iff, candKeyLe_iff]
  omega

theorem candKeyLe_trans (tipo : TipoRotina) (u v w : User) :
    candKeyLe tipo u v = true → candKeyLe tipo v w = true →
      candKeyLe tipo u w = true := by
  rw [candKeyLe_iff, candKeyLe_iff, candKeyLe_iff]
  omega

/-- C7 (amended): the candidate pool contains exactly the persons whose
    gender matches the post's restriction (or it is `Misto`) with no
    unavailability window covering the date, and is ordered by punishment
    balance descending then the duty-type's fairness counter ascending. The
    SQL specifies no id tie-break, so tie order follows the scan order of
    the `users` table, not id order. -/
theorem C7_candidatos_spec (db : DB) (posto : Posto) (data_alvo : String)
    (tipo : TipoRotina) :
    (∀ u, u ∈ candidatos db posto data_alvo tipo ↔
      (u ∈ db.users ∧
        (u.genero = posto.genero_restricao ∨ posto.genero_restricao = "Misto") ∧
        ¬ ∃ i ∈ db.indisponibilidades, i.user_id = u.id ∧
          strLe i.data_inicio data_alvo = true ∧
          strLe data_alvo i.data_fim = true)) ∧
    List.Pairwise (fun u v => v.saldo_punicoes < u.saldo_punicoes ∨
        (u.saldo_punicoes = v.saldo_punicoes ∧ servicoDe tipo u ≤ servicoDe tipo v))
      (candidatos db posto data_alvo tipo) := by
  have elegivel_iff : ∀ v : User, elegivel db posto data_alvo v = true ↔
      ((v.genero = posto.genero_restricao ∨ posto.genero_restricao = "Misto") ∧
        ¬ ∃ i ∈ db.indisponibilidades, i.user_id = v.id ∧
          strLe i.data_inicio data_alvo = true ∧
          strLe data_alvo i.data_fim = true) := by
    intro v
    unfold elegivel
    simp [List.any_eq_true]
  constructor
  · intro u
    unfold candidatos sortRanked
    rw [mem_sortRanked_aux]
    simp only [List.not_mem_nil, false_or, List.mem_filter, elegivel_iff,
      and_assoc]
  · have hp := pairwise_sortRanked_aux (candKeyLe tipo)
      (candKeyLe_total tipo) (candKeyLe_trans tipo)
      (db.users.filter (elegivel db posto data_alvo)) [] (by simp)
    exact List.Pairwise.imp (fun h => (candKeyLe_iff tipo _ _).mp h) hp

/-- C7 counterexample: the claim's "ties broken by natural id ordering" is
    false on the code — the candidate query has no id sort key, so the two
    tied users come back in table order `[b1, a1]`, which is not id-ordered. -/
theorem C7_counterexample :
    ¬ List.Pairwise (specTieOrder .RN)
      (candidatos dbEmpate postoMisto "2025-01-06" .RN) := by
  decide

/-! ## C8: what `solicitar_troca` checks -/

/-- C8 counterexample: `solicitar_troca` never verifies that the requester is
    the current holder of the allocation. Here "y" requests a swap of
    allocation 1, which is held by "x", and a `Pendente` swap record naming
    "y" as requester is created anyway — refuting the claimed "if and only
    if" at this input. -/
theorem C8_counterexample :
    (solicitar_troca dbPedido "y" 1 "z" "motivo").map (fun db' =>
        db'.trocas.map (fun t => (t.solicitante_id, t.substituto_id, t.status))) =
      .ok [("y", "z", "Pendente")] ∧
    dbPedido.alocacoes.map (fun a => a.user_id) = ["x"] ∧
    ("y" : String) ≠ "x" :=
  ⟨rfl, rfl, by decide⟩

/-- C8 (amended): a `Pendente` swap record is created iff the allocation
    joined with its day header exists, the header's status is not
    `Publicada`, and the substitute passes the Fatigue Checker for the
    allocation's date; each failing condition yields its error and creates
    nothing. The requester's ownership of the allocation is not checked. -/
theorem C8_solicitar_spec (db : DB) (sid : String) (aid : Nat)
    (subid : String) (motivo : String) :
    (solicitarJoin db aid = none →
      solicitar_troca db sid aid subid motivo = .error "Alocação não encontrada") ∧
    (∀ st dt, solicitarJoin db aid = some (st, dt) →
      (st = "Publicada" →
        solicitar_troca db sid aid subid motivo =
          .error "Esta escala já está PUBLICADA. Alterações só via Admin/Escalante.") ∧
      (st ≠ "Publicada" → fatigueConflict db.alocacoes subid dt = true →
        solicitar_troca db sid aid subid motivo =
          .error "O substituto viola a regra de fadiga (24h).") ∧
      (st ≠ "Publicada" → fatigueConflict db.alocacoes subid dt = false →
        solicitar_troca db sid aid subid motivo = .ok { db with
          trocas := db.trocas ++
            [⟨db.nextId, sid, subid, aid, "Pendente", motivo, none⟩]
          nextId := db.nextId + 1 })) := by
  constructor
  · intro hn
    unfold solicitar_troca
    rw [hn]
  · intro st dt hj
    have hb : ∀ (r : String), st ≠ r → (st == r) = false := by
      intro r hr
      exact beq_eq_false_iff_ne.mpr hr
    refine ⟨?_, ?_, ?_⟩
    · intro hpub
      unfold solicitar_troca
      rw [hj]
      simp [hpub]
    · intro hpub hf
      unfold solicitar_troca
      rw [hj]
      simp [hb _ hpub, hf]
    · intro hpub hf
      unfold solicitar_troca
      rw [hj]
      simp [hb _ hpub, hf]

/-- Witness for C8 (amended) at `dbPedido`: the draft-day, fatigue-free
    request goes through and appends the pending record. -/
theorem C8_witness :
    solicitar_troca dbPedido "y" 1 "z" "motivo" = .ok { dbPedido with
      trocas := dbPedido.trocas ++
        [⟨dbPedido.nextId, "y", "z", 1, "Pendente", "motivo", none⟩]
      nextId := dbPedido.nextId + 1 } :=
  ((C8_solicitar_spec dbPedido "y" 1 "z" "motivo").2 "Rascunho" "2025-01-06"
      (by rfl)).2.2 (by decide) (by rfl)

/-! ## C3: regeneration is idempotent on counters — algebra of updates -/

theorem applyField_id (f : CounterField) (d : Int) (u : User) :
    (applyField f d u).id = u.id := by
  cases f <;> rfl

theorem applyField_comm (f g : CounterField) (d e : Int) (u : User) :
    applyField f d (applyField g e u) = applyField g e (applyField f d u) := by
  cases f <;> cases g <;> simp [applyField, Int.add_right_comm]

theorem applyField_cancel (f : CounterField) (d : Int) (u : User) :
    applyField f (-d) (applyField f d u) = u := by
  cases f <;> simp [applyField]

theorem updCounter_comm (f g : CounterField) (d e : Int) (x y : String)
    (users : List User) :
    updCounter f d x (updCounter g e y users) =
      updCounter g e y (updCounter f d x users) := by
  unfold updCounter
  rw [List.map_map, List.map_map]
  apply List.map_congr_left
  intro u _
  simp only [Function.comp_apply]
  by_cases hx : (u.id == x) = true <;> by_cases hy : (u.id == y) = true <;>
    simp [hx, hy, applyField_id, applyField_comm]

theorem updCounter_cancel (f : CounterField) (d : Int) (x : String)
    (users : List User) :
    updCounter f (-d) x (updCounter f d x users) = users := by
  unfold updCounter
  rw [List.map_map]
  conv_rhs => rw [← List.map_id users]
  apply List.map_congr_left
  intro u _
  simp only [Function.comp_apply, id]
  by_cases hx : (u.id == x) = true
  · simp [hx, applyField_id, applyField_cancel]
  · simp [hx]

theorem updCounter_bookkeep_comm (tipo : TipoRotina) (f : CounterField)
    (d : Int) (x : String) (ds : List (String × Bool)) (users : List User) :
    updCounter f d x (bookkeepDeltas tipo ds users) =
      bookkeepDeltas tipo ds (updCounter f d x users) := by
  induction ds generalizing users with
  | nil => rfl
  | cons p ps ih =>
    show updCounter f d x (bookkeepDeltas tipo ps _) = _
    rw [ih]
    by_cases hp : p.2 = true <;>
      simp [bookkeepDeltas, hp, updCounter_comm]

theorem tipoCol_as_str (tipo : TipoRotina) :
    (if tipo.as_str == "RN" then CounterField.rn else CounterField.rd) =
      colField tipo := by
  cases tipo <;> rfl

/-- The teardown of step 1 exactly inverts the bookkeeping of step 4: folding
    the teardown rows of the freshly written allocations over the
    post-bookkeeping users restores the original users. -/
theorem teardown_inverts_bookkeep (tipo : TipoRotina)
    (ds : List (String × Bool)) (users : List User) :
    (ds.map (fun p => (p.1, p.2, tipo.as_str))).foldl applyTeardownRow
      (bookkeepDeltas tipo ds users) = users := by
  induction ds generalizing users with
  | nil => rfl
  | cons p ps ih =>
    have hcons : bookkeepDeltas tipo (p :: ps) users =
        bookkeepDeltas tipo ps
          (if p.2 then updCounter .saldo (-1) p.1 users
            else updCounter (colField tipo) 1 p.1 users) := rfl
    simp only [List.map_cons, List.foldl_cons, hcons]
    by_cases hp : p.2 = true
    · have hrow : applyTeardownRow
          (bookkeepDeltas tipo ps (updCounter .saldo (-1) p.1 users))
          (p.1, true, tipo.as_str) = bookkeepDeltas tipo ps users := by
        show updCounter .saldo 1 p.1
            (bookkeepDeltas tipo ps (updCounter .saldo (-1) p.1 users)) = _
        rw [updCounter_bookkeep_comm]
        have hc := updCounter_cancel .saldo (-1) p.1 users
        norm_num at hc
        rw [hc]
      simp only [hp, if_true, hrow]
      exact ih _
    · have hp' : p.2 = false := by simpa using hp
      have hrow : applyTeardownRow
          (bookkeepDeltas tipo ps (updCounter (colField tipo) 1 p.1 users))
          (p.1, false, tipo.as_str) = bookkeepDeltas tipo ps users := by
        show updCounter (if tipo.as_str == "RN" then .rn else .rd) (-1) p.1
            (bookkeepDeltas tipo ps (updCounter (colField tipo) 1 p.1 users)) = _
        rw [tipoCol_as_str, updCounter_bookkeep_comm]
        rw [updCounter_cancel (colField tipo) 1 p.1 users]
      simp only [hp', Bool.false_eq_true, if_false, hrow]
      exact ih _

/-- What one successful post allocation does to the store. -/
theorem alocarPosto_ok (db : DB) (p : Posto) (data_alvo : String)
    (tipo : TipoRotina) (db1 : DB)
    (h : alocarPosto db p data_alvo tipo = .ok db1) :
    ∃ u : User,
      db1.users = (if decide (u.saldo_punicoes > 0) then
          updCounter .saldo (-1) u.id db.users
        else updCounter (colField tipo) 1 u.id db.users) ∧
      db1.alocacoes = db.alocacoes ++
        [⟨db.nextId, u.id, p.id, data_alvo, decide (u.saldo_punicoes > 0)⟩] ∧
      db1.escalas = db.escalas ∧ db1.postos = db.postos ∧
      db1.indisponibilidades = db.indisponibilidades ∧
      db1.trocas = db.trocas ∧ db1.now = db.now := by
  unfold alocarPosto at h
  cases hesc : escolherCandidato db.alocacoes p data_alvo
      (candidatos db p data_alvo tipo) with
  | none => rw [hesc] at h; cases h
  | some u =>
    rw [hesc] at h
    refine ⟨u, ?_⟩
    by_cases hp : decide (u.saldo_punicoes > 0) = true
    · simp only [hp, if_true] at h ⊢
      cases h
      exact ⟨rfl, rfl, rfl, rfl, rfl, rfl, rfl⟩
    · have hp' : decide (u.saldo_punicoes > 0) = false := by simpa using hp
      simp only [hp', Bool.false_eq_true, if_false] at h ⊢
      cases h
      exact ⟨rfl, rfl, rfl, rfl, rfl, rfl, rfl⟩

/-- What a whole successful allocation pass does to the store: a list of
    per-post bookkeeping deltas applied to the users, plus freshly inserted
    rows for the target date; nothing else changes. -/
theorem alocarPostos_spec (data_alvo : String) (tipo : TipoRotina) :
    ∀ (ps : List Posto) (db db' : DB),
      alocarPostos data_alvo tipo ps db = .ok db' →
      ∃ (ds : List (String × Bool)) (rows : List Alocacao),
        db'.users = bookkeepDeltas tipo ds db.users ∧
        db'.alocacoes = db.alocacoes ++ rows ∧
        rows.map (fun a => (a.user_id, a.is_punicao)) = ds ∧
        (∀ a ∈ rows, a.data = data_alvo) ∧
        db'.escalas = db.escalas ∧ db'.postos = db.postos ∧
        db'.indisponibilidades = db.indisponibilidades ∧
        db'.trocas = db.trocas ∧ db'.now = db.now := by
  intro ps
  induction ps with
  | nil =>
    intro db db' h
    cases h
    exact ⟨[], [], rfl, (List.append_nil _).symm, rfl, by simp, rfl, rfl, rfl,
      rfl, rfl⟩
  | cons p ps ih =>
    intro db db' h
    unfold alocarPostos at h
    cases halo : alocarPosto db p data_alvo tipo with
    | error e => rw [halo] at h; cases h
    | ok db1 =>
      rw [halo] at h
      obtain ⟨u, hu, hal, hesc, hpos, hind, htr, hnow⟩ :=
        alocarPosto_ok db p data_alvo tipo db1 halo
      obtain ⟨ds, rows, hu', hal', hproj, hdata, hesc', hpos', hind', htr', hnow'⟩ :=
        ih db1 db' h
      refine ⟨(u.id, decide (u.saldo_punicoes > 0)) :: ds,
        (⟨db.nextId, u.id, p.id, data_alvo, decide (u.saldo_punicoes > 0)⟩ : Alocacao)
          :: rows, ?_, ?_, ?_, ?_, ?_, ?_, ?_, ?_, ?_⟩
      · rw [hu', hu]
        have hstep : bookkeepDeltas tipo
            ((u.id, decide (u.saldo_punicoes > 0)) :: ds) db.users =
            bookkeepDeltas tipo ds
              (if decide (u.saldo_punicoes > 0) then
                updCounter .saldo (-1) u.id db.users
              else updCounter (colField tipo) 1 u.id db.users) := rfl
        rw [hstep]
      · rw [hal', hal, List.append_assoc]
        rfl
      · simp only [List.map_cons, hproj]
      · intro a ha
        rcases List.mem_cons.mp ha with rfl | ha'
        · rfl
        · exact hdata a ha'
      · rw [hesc', hesc]
      · rw [hpos', hpos]
      · rw [hind', hind]
      · rw [htr', htr]
      · rw [hnow', hnow]

theorem any_map_beta {α β : Type} (f : α → β) (p : β → Bool) (l : List α) :
    (l.map f).any p = l.any (fun a => p (f a)) := by
  induction l with
  | nil => rfl
  | cons x xs ih => simp [List.any_cons, ih]

/-- The Fatigue Checker only looks at the owner and the date of each row. -/
theorem fatigueConflict_congr (l1 l2 : List Alocacao) (uid data_alvo : String)
    (h : l1.map stripId = l2.map stripId) :
    fatigueConflict l1 uid data_alvo = fatigueConflict l2 uid data_alvo := by
  unfold fatigueConflict
  have hmap : ∀ l : List Alocacao,
      (l.any (fun a => a.user_id == uid &&
        match dateToDays? a.data, dateToDays? data_alvo with
        | some x, some y => decide (y - 1 ≤ x) && decide (x ≤ y + 1)
        | _, _ => false)) =
      ((l.map stripId).any (fun q => q.1 == uid &&
        match dateToDays? q.2.2.1, dateToDays? data_alvo with
        | some x, some y => decide (y - 1 ≤ x) && decide (x ≤ y + 1)
        | _, _ => false)) := by
    intro l
    rw [any_map_beta]
    rfl
  rw [hmap, hmap, h]

theorem candidatos_congr (s t : DB) (posto : Posto) (data_alvo : String)
    (tipo : TipoRotina) (hu : s.users = t.users)
    (hi : s.indisponibilidades = t.indisponibilidades) :
    candidatos s posto data_alvo tipo = candidatos t posto data_alvo tipo := by
  unfold candidatos
  have he : elegivel s posto data_alvo = elegivel t posto data_alvo := by
    funext u
    unfold elegivel
    rw [hi]
  rw [hu, he]

theorem escolherCandidato_congr (l1 l2 : List Alocacao) (posto : Posto)
    (data_alvo : String) (h : l1.map stripId = l2.map stripId) :
    ∀ cs, escolherCandidato l1 posto data_alvo cs =
      escolherCandidato l2 posto data_alvo cs := by
  intro cs
  induction cs with
  | nil => rfl
  | cons u rest ih =>
    unfold escolherCandidato
    rw [fatigueConflict_congr l1 l2 u.id data_alvo h, ih]

/-- One post allocation step preserves the simulation between two stores that
    differ only in generated ids. -/
theorem alocarPosto_sim (p : Posto) (data_alvo : String) (tipo : TipoRotina)
    (s t : DB) (h : DBSim s t) :
    ExceptSim (alocarPosto s p data_alvo tipo) (alocarPosto t p data_alvo tipo) := by
  obtain ⟨hu, hp, hi, he, htr, hnow, hal⟩ := h
  unfold alocarPosto
  rw [candidatos_congr s t p data_alvo tipo hu hi,
    escolherCandidato_congr s.alocacoes t.alocacoes p data_alvo hal]
  cases escolherCandidato t.alocacoes p data_alvo
      (candidatos t p data_alvo tipo) with
  | none => exact rfl
  | some u =>
    by_cases hs : decide (u.saldo_punicoes > 0) = true
    · simp only [hs, if_true]
      refine ⟨?_, hp, hi, he, htr, hnow, ?_⟩
      · rw [hu]
      · simp only [List.map_append, hal]
        rfl
    · have hs' : decide (u.saldo_punicoes > 0) = false := by simpa using hs
      simp only [hs', Bool.false_eq_true, if_false]
      refine ⟨?_, hp, hi, he, htr, hnow, ?_⟩
      · rw [hu]
      · simp only [List.map_append, hal]
        rfl

theorem alocarPostos_sim (data_alvo : String) (tipo : TipoRotina) :
    ∀ (ps : List Posto) (s t : DB), DBSim s t →
      ExceptSim (alocarPostos data_alvo tipo ps s)
        (alocarPostos data_alvo tipo ps t) := by
  intro ps
  induction ps with
  | nil => intro s t h; exact h
  | cons p ps ih =>
    intro s t h
    have h1 := alocarPosto_sim p data_alvo tipo s t h
    unfold alocarPostos
    cases hs : alocarPosto s p data_alvo tipo with
    | error e =>
      cases ht : alocarPosto t p data_alvo tipo with
      | error f =>
        rw [hs, ht] at h1
        exact h1 ▸ rfl
      | ok b => rw [hs, ht] at h1; cases h1
    | ok a =>
      cases ht : alocarPosto t p data_alvo tipo with
      | error f => rw [hs, ht] at h1; cases h1
      | ok b =>
        rw [hs, ht] at h1
        exact ih a b h1

theorem find?_append_left_none {α : Type} (p : α → Bool) (l1 l2 : List α)
    (h : ∀ x ∈ l1, p x = false) :
    (l1 ++ l2).find? p = l2.find? p := by
  rw [List.find?_append]
  have h1 : l1.find? p = none :=
    List.find?_eq_none.mpr (fun x hx => by simp [h x hx])
  rw [h1, Option.none_or]

theorem flatMap_teardown_rows (escalas : List Escala) (data_alvo tr : String)
    (hfil : escalas.filter (fun e => e.data == data_alvo) =
      [⟨data_alvo, tr, "Rascunho"⟩]) :
    ∀ rows : List Alocacao, (∀ a ∈ rows, a.data = data_alvo) →
      rows.flatMap (fun a =>
        (escalas.filter (fun e => e.data == a.data)).map (fun e =>
          (a.user_id, a.is_punicao, e.tipo_rotina))) =
      rows.map (fun a => (a.user_id, a.is_punicao, tr)) := by
  intro rows
  induction rows with
  | nil => intro _; rfl
  | cons a rest ih =>
    intro hall
    have ha : a.data = data_alvo := hall a (by simp)
    rw [List.flatMap_cons, ha, hfil, List.map_cons,
      ih (fun x hx => hall x (by simp [hx]))]
    rfl

/-- A successful day generation is, after the status check and the
    teardown/upsert, exactly an allocation pass from a store `A` whose
    allocations avoid the target date and whose headers are some
    date-free prefix `E0` plus the fresh `Rascunho` header. -/
theorem gerar_ok_shape (db : DB) (data_alvo : String) (tipo : TipoRotina)
    (db1 : DB) (h : gerar_escala_diaria db data_alvo tipo = .ok db1)
    (hsafe : statusOf db data_alvo = none →
      ∀ a ∈ db.alocacoes, a.data ≠ data_alvo) :
    ∃ (A : DB) (E0 : List Escala),
      alocarPostos data_alvo tipo A.postos A = .ok db1 ∧
      (∀ a ∈ A.alocacoes, a.data ≠ data_alvo) ∧
      A.escalas = E0 ++ [⟨data_alvo, tipo.as_str, "Rascunho"⟩] ∧
      (∀ e ∈ E0, e.data ≠ data_alvo) := by
  unfold gerar_escala_diaria at h
  cases hst : statusOf db data_alvo with
  | none =>
    rw [hst] at h
    refine ⟨upsertHeader db data_alvo tipo,
      db.escalas.filter (fun e => e.data != data_alvo), h, ?_, rfl, ?_⟩
    · exact hsafe hst
    · intro e he
      exact bne_iff_ne.mp (List.mem_filter.mp he).2
  | some s =>
    rw [hst] at h
    by_cases hpub : (s == "Publicada") = true
    · simp only [hpub, if_true] at h
      exact Except.noConfusion h
    · have hpub' : (s == "Publicada") = false := by simpa using hpub
      simp only [hpub', Bool.false_eq_true, if_false] at h
      refine ⟨upsertHeader (teardown db data_alvo) data_alvo tipo,
        db.escalas.filter (fun e => e.data != data_alvo), h, ?_, rfl, ?_⟩
      · intro a ha
        exact bne_iff_ne.mp (List.mem_filter.mp ha).2
      · intro e he
        exact bne_iff_ne.mp (List.mem_filter.mp he).2

/-- Regenerating a date straight after a successful generation succeeds
    again and restores every user record to its post-first-generation value:
    the teardown exactly inverts the pass's bookkeeping, and the second pass
    then replays the first one (up to generated ids). -/
theorem gerar_regen (db : DB) (data_alvo : String) (tipo : TipoRotina)
    (hsafe : statusOf db data_alvo = none →
      ∀ a ∈ db.alocacoes, a.data ≠ data_alvo)
    (db1 : DB) (h : gerar_escala_diaria db data_alvo tipo = .ok db1) :
    statusOf db1 data_alvo = some "Rascunho" ∧
    ∃ db2, gerar_escala_diaria db1 data_alvo tipo = .ok db2 ∧
      db2.users = db1.users := by
  obtain ⟨A, E0, hpass, hAnone, hAesc, hE0⟩ :=
    gerar_ok_shape db data_alvo tipo db1 h hsafe
  obtain ⟨ds, rows, hu, hal, hproj, hdata, hesc, hpos, hind, htr, hnow⟩ :=
    alocarPostos_spec data_alvo tipo A.postos A db1 hpass
  have hE0false : ∀ e ∈ E0, (e.data == data_alvo) = false :=
    fun e he => beq_eq_false_iff_ne.mpr (hE0 e he)
  have hst1 : statusOf db1 data_alvo = some "Rascunho" := by
    unfold statusOf
    rw [hesc, hAesc, find?_append_left_none _ E0 _ hE0false,
      List.find?_cons_of_pos _ (by simp)]
    rfl
  refine ⟨hst1, ?_⟩
  have hrows_eq : rows.filter (fun a => a.data == data_alvo) = rows :=
    List.filter_eq_self.mpr (fun a ha => by simp [hdata a ha])
  have hrows_ne : rows.filter (fun a => a.data != data_alvo) = [] :=
    List.filter_eq_nil_iff.mpr (fun a ha => by simp [hdata a ha])
  have hA_eq : A.alocacoes.filter (fun a => a.data == data_alvo) = [] :=
    List.filter_eq_nil_iff.mpr (fun a ha => by simp [hAnone a ha])
  have hA_ne : A.alocacoes.filter (fun a => a.data != data_alvo) = A.alocacoes :=
    List.filter_eq_self.mpr (fun a ha => bne_iff_ne.mpr (hAnone a ha))
  have hE0_ne : E0.filter (fun e => e.data != data_alvo) = E0 :=
    List.filter_eq_self.mpr (fun e he => bne_iff_ne.mpr (hE0 e he))
  have hfil1 : db1.escalas.filter (fun e => e.data == data_alvo) =
      [⟨data_alvo, tipo.as_str, "Rascunho"⟩] := by
    rw [hesc, hAesc, List.filter_append,
      List.filter_eq_nil_iff.mpr (fun e he => by simp [hE0false e he])]
    simp
  have htdr : teardownRows db1 data_alvo =
      rows.map (fun a => (a.user_id, a.is_punicao, tipo.as_str)) := by
    unfold teardownRows
    rw [hal, List.filter_append, hA_eq, hrows_eq, List.nil_append]
    exact flatMap_teardown_rows db1.escalas data_alvo tipo.as_str hfil1 rows hdata
  have htd_users : (teardown db1 data_alvo).users = A.users := by
    show (teardownRows db1 data_alvo).foldl applyTeardownRow db1.users = A.users
    rw [htdr, hu]
    have hm : rows.map (fun a => (a.user_id, a.is_punicao, tipo.as_str)) =
        ds.map (fun p => (p.1, p.2, tipo.as_str)) := by
      rw [← hproj, List.map_map]
      rfl
    rw [hm]
    exact teardown_inverts_bookkeep tipo ds A.users
  have htd_al : (teardown db1 data_alvo).alocacoes = A.alocacoes := by
    show db1.alocacoes.filter (fun a => a.data != data_alvo) = A.alocacoes
    rw [hal, List.filter_append, hA_ne, hrows_ne, List.append_nil]
  have hred : gerar_escala_diaria db1 data_alvo tipo =
      alocarPostos data_alvo tipo
        (upsertHeader (teardown db1 data_alvo) data_alvo tipo).postos
        (upsertHeader (teardown db1 data_alvo) data_alvo tipo) := by
    unfold gerar_escala_diaria
    rw [hst1]
    rfl
  have hsim : DBSim (upsertHeader (teardown db1 data_alvo) data_alvo tipo) A := by
    refine ⟨htd_users, hpos, hind, ?_, htr, hnow, ?_⟩
    · show db1.escalas.filter (fun e => e.data != data_alvo) ++
        [⟨data_alvo, tipo.as_str, "Rascunho"⟩] = A.escalas
      rw [hesc, hAesc, List.filter_append, hE0_ne]
      simp
    · show (teardown db1 data_alvo).alocacoes.map stripId =
        A.alocacoes.map stripId
      rw [htd_al]
  have hBpos : (upsertHeader (teardown db1 data_alvo) data_alvo tipo).postos =
      A.postos := hpos
  have hexc := alocarPostos_sim data_alvo tipo A.postos
    (upsertHeader (teardown db1 data_alvo) data_alvo tipo) A hsim
  rw [hred, hBpos]
  cases h2 : alocarPostos data_alvo tipo A.postos
      (upsertHeader (teardown db1 data_alvo) data_alvo tipo) with
  | error e =>
    rw [h2, hpass] at hexc
    cases hexc
  | ok db2 =>
    rw [h2, hpass] at hexc
    have hsim2 : DBSim db2 db1 := hexc
    exact ⟨db2, rfl, hsim2.1⟩

/-- C3: for a store whose allocations on the target date (if any) sit under a
    day header, once `gerar_escala_diaria` succeeds, regenerating the same
    date once or twice more succeeds and leaves every user record — in
    particular both fairness counters and the punishment balance of every
    person — exactly as after the single generation: step 2's teardown
    exactly inverts step 4's bookkeeping. -/
theorem C3_regeneracao_idempotente (db : DB) (data_alvo : String)
    (tipo : TipoRotina)
    (hsafe : statusOf db data_alvo = none →
      ∀ a ∈ db.alocacoes, a.data ≠ data_alvo) :
    ∀ db1, gerar_escala_diaria db data_alvo tipo = .ok db1 →
      ∃ db2 db3, gerar_escala_diaria db1 data_alvo tipo = .ok db2 ∧
        gerar_escala_diaria db2 data_alvo tipo = .ok db3 ∧
        db2.users = db1.users ∧ db3.users = db1.users := by
  intro db1 h1
  obtain ⟨hst1, db2, h2, hu2⟩ := gerar_regen db data_alvo tipo hsafe db1 h1
  have hsafe1 : statusOf db1 data_alvo = none →
      ∀ a ∈ db1.alocacoes, a.data ≠ data_alvo := by
    intro hn
    rw [hst1] at hn
    cases hn
  obtain ⟨_, db3, h3, hu3⟩ := gerar_regen db1 data_alvo tipo hsafe1 db2 h2
  exact ⟨db2, db3, h2, h3, hu2, hu3.trans hu2⟩

/-- Witness for C3 at the two-user example store: generation succeeds and two
    regenerations reproduce the post-generation users exactly. -/
theorem C3_witness :
    ∃ db1 db2 db3,
      gerar_escala_diaria dbExemplo "2025-01-06" .RN = .ok db1 ∧
      gerar_escala_diaria db1 "2025-01-06" .RN = .ok db2 ∧
      gerar_escala_diaria db2 "2025-01-06" .RN = .ok db3 ∧
      db2.users = db1.users ∧ db3.users = db1.users := by
  have hok : (gerar_escala_diaria dbExemplo "2025-01-06" .RN).isOk = true := by
    rfl
  cases hg : gerar_escala_diaria dbExemplo "2025-01-06" .RN with
  | error e =>
    rw [hg] at hok
    simp [Except.isOk, Except.toBool] at hok
  | ok db1 =>
    obtain ⟨db2, db3, h2, h3, hu2, hu3⟩ :=
      C3_regeneracao_idempotente dbExemplo "2025-01-06" .RN
        (by intro _ a ha; simp [dbExemplo] at ha) db1 hg
    exact ⟨db1, db2, db3, rfl, h2, h3, hu2, hu3⟩

/-- Witness for C10: the swap on the already-published day is approved and
    the allocation rewritten to the substitute. -/
theorem C10_witness :
    ∃ db', aprovar_troca dbTrocaPublicada 2 = .ok db' ∧
      db'.alocacoes = dbTrocaPublicada.alocacoes.map (fun a =>
        if a.id == (1 : Nat) then { a with user_id := "z" } else a) ∧
      (false = false →
        db'.users =
          updCounter (if "RN" == "RN" then .rn else .rd) 1 "z"
            (updCounter (if "RN" == "RN" then .rn else .rd) (-1) "x"
              dbTrocaPublicada.users)) :=
  C10_aprovar_ignora_publicacao dbTrocaPublicada 2
    ⟨"x", "z", 1, "2025-01-06", "RN", false⟩ (by rfl) (by rfl)
    ⟨⟨"2025-01-06", "RN", "Publicada"⟩, by decide⟩

end Mercal
